import Mathlib

/-!
Verification development for the shader-wrapper subsystem of a vector-graphics
renderer (`manimlib/shader_wrapper.py`): render-unit descriptors, shader source
resolution with a recursive textual `#INSERT` mechanism, descriptor identity,
equality, copying, and batch merging.

Modelling conventions:
* Python strings are Lean `String`s; character-level work goes through the
  underlying `List Char` so that everything is structurally recursive and
  kernel-evaluable.
* Numpy structured arrays (`vert_data`) are `List V` for a record type `V`;
  index arrays are `List Nat`.
* Python dicts are insertion-ordered association lists `List (String × _)`,
  matching dict iteration and `str()` serialization order.
* The filesystem behind `find_file`/`open` (external helpers not part of this
  module) is an abstract map `fs : String → Option String` from the joined
  relative path to file content; `none` is a missing/unreadable file
  (`find_file` raises `IOError`, caught by the resolver).
* Exceptions are explicit outcome constructors; recursion in the include
  resolver is bounded by explicit fuel, `noTermination` marking that the
  Python original would still be recursing at that depth.
-/

/-! ## Character-level string primitives (models of Python `str` operations) -/

/-- Split a character list at newline characters, keeping empty lines and the
final (possibly empty) line, like Python's division of a string into lines for
`re.MULTILINE` matching of `^...$`. `cur` is the reversed current line. -/
def splitLinesAux : List Char → List Char → List (List Char)
  | [], cur => [cur.reverse]
  | c :: rest, cur =>
    if c = '\n' then cur.reverse :: splitLinesAux rest []
    else splitLinesAux rest (c :: cur)

/-- The lines of a string, split at newline characters. -/
def splitLines (s : String) : List (List Char) :=
  splitLinesAux s.data []

/-- One left-to-right, non-overlapping replacement pass, as in Python's
`str.replace(old, new)` for a non-empty `old`.  The `Nat` argument is fuel
bounding the number of scanning steps; `replaceChars` is always called with
fuel `s.length`, which suffices because every step consumes at least one
character of the subject (our patterns are never empty). -/
def replaceChars (pat rep : List Char) : Nat → List Char → List Char
  | _, [] => []
  | 0, s => s
  | fuel + 1, c :: rest =>
    if pat.isPrefixOf (c :: rest) then
      rep ++ replaceChars pat rep fuel (List.drop pat.length (c :: rest))
    else
      c :: replaceChars pat rep fuel rest

/-- Python `s.replace(pat, rep)` for non-empty `pat`: replace every
non-overlapping occurrence, scanning left to right. -/
def strReplace (s pat rep : String) : String :=
  String.mk (replaceChars pat.data rep.data s.data.length s.data)

/-- Python `posixpath.join a b` for a non-empty directory `a` without a
trailing slash: an absolute `b` discards `a`. -/
def osPathJoin (a b : String) : String :=
  if ("/".data).isPrefixOf b.data then b else a ++ "/" ++ b

/-! ## Shader source resolution (`get_shader_code_from_file`) -/

/-- The marker `re.findall(r"^#INSERT .*\.glsl$", ..., re.MULTILINE)` requires
at the start of a matched line. -/
def insertMarker : List Char := "#INSERT ".data

/-- The suffix the directive regex requires at the end of a matched line,
reversed for prefix-testing against the reversed line. -/
def glslMarkerRev : List Char := ".glsl".data.reverse

/-- Whether a line matches the directive regex `^#INSERT .*\.glsl$`: since the
prefix ends in a space and the suffix starts with a dot, no line shorter than
their combined length can satisfy both, so prefix + suffix testing is exactly
the regex. -/
def isInsertLine (l : List Char) : Bool :=
  insertMarker.isPrefixOf l && glslMarkerRev.isPrefixOf l.reverse

/-- The directive lines of a source text, in order of occurrence: the model of
`re.findall(r"^#INSERT .*\.glsl$", result, flags=re.MULTILINE)`. -/
def insertionLines (text : String) : List String :=
  ((splitLines text).filter isInsertLine).map String.mk

/-- Outcome of `get_shader_code_from_file`:
* `found code` — the function returns the string `code`;
* `notFound` — the function returns `None` (file missing/unreadable);
* `typeError` — the Python original raises `TypeError` from
  `str.replace(line, None)` when an `#INSERT` target is missing;
* `noTermination` — the recursion fuel is exhausted, i.e. the Python original
  is still recursing at this depth. -/
inductive ResolveOutcome
  | found (code : String)
  | notFound
  | typeError
  | noTermination
deriving DecidableEq

/-- The subfolder holding shared fragments: `os.path.join("inserts", ...)`. -/
def insertsDirName : String := "inserts"

/-- The lookup path of an `#INSERT` directive line:
`os.path.join("inserts", line.replace("#INSERT ", ""))`. -/
def insertTarget (line : String) : String :=
  osPathJoin insertsDirName (strReplace line "#INSERT " "")

/-- The `for line in insertions` loop of `get_shader_code_from_file`:
each directive line's target is resolved (by the supplied resolver, which is
the same function one fuel level down) and spliced in by
`result = result.replace(line, inserted_code)`.  A `notFound` target makes
`str.replace` receive `None` and raise `TypeError`; an exception from the
recursive call propagates. -/
def substList (resolveFn : String → ResolveOutcome) :
    List String → String → ResolveOutcome
  | [], result => .found result
  | line :: rest, result =>
    match resolveFn (insertTarget line) with
    | .found code => substList resolveFn rest (strReplace result line code)
    | .notFound => .typeError
    | .typeError => .typeError
    | .noTermination => .noTermination

/-- `get_shader_code_from_file(filename)` over an abstract filesystem `fs`
(the composition of `find_file` over the search directories and `open().read()`;
`fs _ = none` models the caught `IOError`).  The `lru_cache` decorator affects
only performance, not values, and is not modelled.  Fuel bounds the recursion
depth; the Python original has no cycle guard, so exhausted fuel corresponds to
a still-running recursion. -/
def getShaderCodeFromFile (fs : String → Option String) :
    Nat → String → ResolveOutcome
  | 0 => fun _ => .noTermination
  | fuel + 1 => fun filename =>
    if filename = "" then .notFound
    else
      match fs filename with
      | none => .notFound
      | some text => substList (getShaderCodeFromFile fs fuel) (insertionLines text) text

/-! ## Palette literal helper (`get_colormap_code`) -/

/-- `get_colormap_code(rgb_list)`: a GLSL `vec3` array literal with one entry
per RGB triple, comma-separated, in input order. -/
def getColormapCode (rgbList : List (Nat × Nat × Nat)) : String :=
  "vec3[" ++ toString rgbList.length ++ "](" ++
    String.intercalate ","
      (rgbList.map fun rgb =>
        "vec3(" ++ toString rgb.1 ++ ", " ++ toString rgb.2.1 ++ ", " ++
          toString rgb.2.2 ++ ")") ++ ")"

/-! ## List helpers for buffer manipulation -/

/-- Numpy slice assignment `arr[s : s + len(b)] = b` for an in-range slice
(`s + len(b) ≤ len(arr)`, the only way `read_in` uses it — numpy raises on a
length mismatch, which cannot occur there). -/
def setSlice (arr : List α) (s : Nat) (b : List α) : List α :=
  arr.take s ++ b ++ arr.drop (s + b.length)

/-- The contiguous block `arr[s : s + n]`. -/
def arrSlice (arr : List α) (s n : Nat) : List α :=
  (arr.drop s).take n

/-- Modelled from the spec: `resize_array` (from `manimlib.utils.iterables`,
imported by the module but not part of it) grows or truncates an array to the
requested length, the grown tail being filled by cyclic repetition as with
`np.resize`; the spec only requires "grow target's VertexBuffer to that
length", and `read_in` overwrites every slot afterwards. -/
def resizeArray [Inhabited α] (arr : List α) (n : Nat) : List α :=
  if arr.length = n then arr
  else (List.range n).map fun i => arr.getD (i % arr.length) default

/-! ## The descriptor (`ShaderWrapper`) data model -/

/-- The `program_code` dict: three slots, `None` marking an unresolved slot. -/
structure ProgramCode where
  vertex_shader : Option String
  geometry_shader : Option String
  fragment_shader : Option String
deriving DecidableEq

/-- A `ShaderWrapper` value: one draw unit's buffers, configuration and the two
derived identity fields.  `V` is the vertex record type of the numpy structured
array; `U` the type of uniform values.  `render_primitive` is stored already
stringified (`str(render_primitive)` in `__init__`); `program_id` and `id` are
the stored results of `refresh_id`. -/
structure ShaderWrapper (V U : Type) where
  vert_data : List V
  vert_indices : Option (List Nat)
  shader_folder : String
  uniforms : List (String × U)
  texture_paths : List (String × String)
  depth_test : Bool
  use_clip_plane : Bool
  render_primitive : String
  program_code : ProgramCode
  program_id : Int
  id : String
deriving DecidableEq

/-- Python `str()` of a `bool`. -/
def pyBoolStr (b : Bool) : String :=
  if b then "True" else "False"

/-- Python `str()` of a dict, in insertion order, values rendered by `toS`:
`\x7b'k1': v1, 'k2': v2\x7d`. -/
def pyDictStr (toS : α → String) (d : List (String × α)) : String :=
  "\x7b" ++
    String.intercalate ", "
      (d.map fun kv => "\x27" ++ kv.1 ++ "\x27: " ++ toS kv.2) ++
    "\x7d"

/-- Python `str()` of a dict with string values (`repr` quotes them). -/
def pyStrDictStr (d : List (String × String)) : String :=
  pyDictStr (fun v => "\x27" ++ v ++ "\x27") d

/-- `create_program_id`: `hash` of the concatenation of vertex, geometry and
fragment source, in that order, `None` slots contributing `""`.  Python's
`hash` is an opaque platform function, so it is a parameter `hashFn`. -/
def createProgramId (hashFn : String → Int) {V U : Type}
    (sw : ShaderWrapper V U) : Int :=
  hashFn (sw.program_code.vertex_shader.getD "" ++
    sw.program_code.geometry_shader.getD "" ++
    sw.program_code.fragment_shader.getD "")

/-- `create_id`: `"|".join(map(str, [program_id, uniforms, texture_paths,
depth_test, render_primitive]))`. -/
def createId [ToString U] {V : Type} (sw : ShaderWrapper V U) : String :=
  String.intercalate "|"
    [toString sw.program_id,
     pyDictStr toString sw.uniforms,
     pyStrDictStr sw.texture_paths,
     pyBoolStr sw.depth_test,
     sw.render_primitive]

/-- `refresh_id`: store `create_program_id()` into `program_id`, then
`create_id()` (which reads the fresh `program_id`) into `id`. -/
def refreshId (hashFn : String → Int) [ToString U] {V : Type}
    (sw : ShaderWrapper V U) : ShaderWrapper V U :=
  let p := createProgramId hashFn sw
  let sw1 := { sw with program_id := p }
  { sw1 with id := createId sw1 }

/-- `init_program_code`: resolve `vert.glsl`, `geom.glsl`, `frag.glsl` under
the shader folder.  A slot resolving to `notFound` is stored as `none`; a
`TypeError` (or, for the fuel model, a still-running recursion) escapes the
constructor, modelled by the outer `none`. -/
def slotOfOutcome : ResolveOutcome → Option (Option String)
  | .found s => some (some s)
  | .notFound => some none
  | .typeError => none
  | .noTermination => none

/-- The `program_code` computed by `init_program_code` over filesystem `fs`. -/
def initProgramCode (fs : String → Option String) (fuel : Nat)
    (folder : String) : Option ProgramCode := do
  let v ← slotOfOutcome (getShaderCodeFromFile fs fuel (osPathJoin folder "vert.glsl"))
  let g ← slotOfOutcome (getShaderCodeFromFile fs fuel (osPathJoin folder "geom.glsl"))
  let f ← slotOfOutcome (getShaderCodeFromFile fs fuel (osPathJoin folder "frag.glsl"))
  some ⟨v, g, f⟩

/-- `ShaderWrapper.__init__`: store the inputs (`render_primitive`
stringified), resolve the program code, then `refresh_id`. -/
def mkShaderWrapper (hashFn : String → Int) [ToString U]
    (fs : String → Option String) (fuel : Nat)
    (vert_data : List V) (vert_indices : Option (List Nat))
    (shader_folder : String) (uniforms : List (String × U))
    (texture_paths : List (String × String))
    (depth_test use_clip_plane : Bool) (render_primitive : Nat) :
    Option (ShaderWrapper V U) :=
  (initProgramCode fs fuel shader_folder).map fun pc =>
    refreshId hashFn
      { vert_data := vert_data
        vert_indices := vert_indices
        shader_folder := shader_folder
        uniforms := uniforms
        texture_paths := texture_paths
        depth_test := depth_test
        use_clip_plane := use_clip_plane
        render_primitive := toString render_primitive
        program_code := pc
        program_id := 0
        id := "" }

/-! ## Equality (`__eq__`) -/

/-- Python dict lookup `d[k]`, `none` modelling the `KeyError`. -/
def dictLookup (d : List (String × α)) (k : String) : Option α :=
  (d.find? fun kv => kv.1 = k).map fun kv => kv.2

/-- `all(self_d[key] == other_d[key] for key in self_d)`: iterate the FIRST
dict's keys in insertion order, short-circuiting on the first mismatch; a key
absent from the second dict raises `KeyError` (`none`) when reached. -/
def dictEntriesAgree [DecidableEq α] :
    List (String × α) → List (String × α) → Option Bool
  | [], _ => some true
  | kv :: rest, otherD =>
    match dictLookup otherD kv.1 with
    | none => none
    | some w => if kv.2 = w then dictEntriesAgree rest otherD else some false

/-- `__eq__`: the 7-tuple handed to `all` is built eagerly, so a `KeyError`
from either dict comparison (`none`) escapes regardless of the other
components; otherwise the result is the conjunction.  `np.all(a == b)` on
arrays is elementwise equality (false on a length mismatch, and
`None == None` is true), modelled by equality of the `List`/`Option` values. -/
def shaderWrapperEq [DecidableEq V] [DecidableEq U]
    (a b : ShaderWrapper V U) : Option Bool :=
  match dictEntriesAgree a.uniforms b.uniforms,
      dictEntriesAgree a.texture_paths b.texture_paths with
  | some u, some t =>
    some (decide (a.vert_data = b.vert_data) &&
      decide (a.vert_indices = b.vert_indices) &&
      decide (a.shader_folder = b.shader_folder) &&
      u && t &&
      decide (a.depth_test = b.depth_test) &&
      decide (a.render_primitive = b.render_primitive))
  | _, _ => none

/-! ## Batch merging (`read_in` / `combine_with`) -/

/-- The cursor loop of `read_in`: walk the sources in order, copying each
source's vertex block at the vertex cursor, and, when both the target and the
source carry an index buffer, its index block — each index shifted by the
current vertex cursor — at the index cursor. -/
def readInLoop {V U : Type} :
    List (ShaderWrapper V U) → ShaderWrapper V U → Nat → Nat → ShaderWrapper V U
  | [], acc, _, _ => acc
  | s :: rest, acc, nPoints, nVerts =>
    match acc.vert_indices, s.vert_indices with
    | some tIdx, some sIdx =>
      readInLoop rest
        { acc with
          vert_data := setSlice acc.vert_data nPoints s.vert_data
          vert_indices := some (setSlice tIdx nVerts (sIdx.map fun i => i + nPoints)) }
        (nPoints + s.vert_data.length) (nVerts + sIdx.length)
    | _, _ =>
      readInLoop rest
        { acc with vert_data := setSlice acc.vert_data nPoints s.vert_data }
        (nPoints + s.vert_data.length) nVerts

/-- Sum of the sources' vertex counts. -/
def sumVerts {V U : Type} (sws : List (ShaderWrapper V U)) : Nat :=
  (sws.map fun s => s.vert_data.length).sum

/-- Sum of the sources' index counts (`len(sw.vert_indices)`). -/
def sumIdx {V U : Type} (sws : List (ShaderWrapper V U)) : Nat :=
  (sws.map fun s => (s.vert_indices.getD []).length).sum

/-- `read_in(self, *shader_wrappers)`: resize `vert_data` to the total vertex
count; if `self` carries an index buffer, the total index count
`sum(len(sw.vert_indices) for sw in shader_wrappers)` raises `TypeError` as
soon as a source lacks one (`len(None)`), modelled by `Except.error`;
otherwise resize the index buffer too, then run the cursor loop. -/
def readIn {V U : Type} [Inhabited V] (sw : ShaderWrapper V U)
    (sws : List (ShaderWrapper V U)) : Except Unit (ShaderWrapper V U) :=
  match sw.vert_indices with
  | none =>
    Except.ok (readInLoop sws
      { sw with vert_data := resizeArray sw.vert_data (sumVerts sws) } 0 0)
  | some idx =>
    if sws.all fun s => s.vert_indices.isSome then
      Except.ok (readInLoop sws
        { sw with
          vert_data := resizeArray sw.vert_data (sumVerts sws)
          vert_indices := some (resizeArray idx (sumIdx sws)) } 0 0)
    else Except.error ()

/-- `combine_with(self, *shader_wrappers)`: with at least one argument,
delegate to `read_in(self.copy(), *shader_wrappers)` — in this value model
`self.copy()` is `self` — otherwise return `self` unchanged. -/
def combineWith {V U : Type} [Inhabited V] (sw : ShaderWrapper V U)
    (others : List (ShaderWrapper V U)) : Except Unit (ShaderWrapper V U) :=
  if others.length > 0 then readIn sw (sw :: others) else Except.ok sw

/-! ## Object-graph model for `copy()` and in-place mutation

`copy()` semantics (`copy.copy(self)` plus selective re-allocation of the
mutable buffers) is about aliasing, so the mutable objects — numpy arrays and
dicts — live in an explicit heap and a descriptor holds references to them;
scalar/immutable configuration is held by value, as in Python. -/

/-- A heap cell: a vertex array, an index array, a uniform dict or a texture
dict. -/
inductive HeapObj (V U : Type)
  | varr (data : List V)
  | iarr (data : List Nat)
  | udict (d : List (String × U))
  | sdict (d : List (String × String))

/-- A heap: cell contents plus the next fresh address. -/
structure Heap (V U : Type) where
  mem : Nat → HeapObj V U
  next : Nat

/-- Allocate a fresh cell, returning its address. -/
def allocObj (h : Heap V U) (o : HeapObj V U) : Nat × Heap V U :=
  (h.next, ⟨fun n => if n = h.next then o else h.mem n, h.next + 1⟩)

/-- Overwrite the cell at address `r` (an in-place mutation of that object). -/
def writeObj (h : Heap V U) (r : Nat) (o : HeapObj V U) : Heap V U :=
  ⟨fun n => if n = r then o else h.mem n, h.next⟩

/-- Read a vertex array (defaulting on a type-confused cell, which never
arises). -/
def Heap.getV (h : Heap V U) (r : Nat) : List V :=
  match h.mem r with
  | .varr d => d
  | _ => []

/-- Read an index array. -/
def Heap.getI (h : Heap V U) (r : Nat) : List Nat :=
  match h.mem r with
  | .iarr d => d
  | _ => []

/-- Read a uniform dict. -/
def Heap.getU (h : Heap V U) (r : Nat) : List (String × U) :=
  match h.mem r with
  | .udict d => d
  | _ => []

/-- Read a texture dict. -/
def Heap.getS (h : Heap V U) (r : Nat) : List (String × String) :=
  match h.mem r with
  | .sdict d => d
  | _ => []

/-- A `ShaderWrapper` object as Python sees it: references to its mutable
buffers/dicts, immutable configuration and derived identities by value. -/
structure ShaderWrapperRef where
  vert_data : Nat
  vert_indices : Option Nat
  shader_folder : String
  uniforms : Nat
  texture_paths : Nat
  depth_test : Bool
  use_clip_plane : Bool
  render_primitive : String
  program_code : ProgramCode
  program_id : Int
  id : String

/-- The descriptor value currently visible through a reference descriptor:
pull each referenced object out of the heap. -/
def derefSW (h : Heap V U) (sw : ShaderWrapperRef) : ShaderWrapper V U where
  vert_data := h.getV sw.vert_data
  vert_indices := sw.vert_indices.map h.getI
  shader_folder := sw.shader_folder
  uniforms := h.getU sw.uniforms
  texture_paths := h.getS sw.texture_paths
  depth_test := sw.depth_test
  use_clip_plane := sw.use_clip_plane
  render_primitive := sw.render_primitive
  program_code := sw.program_code
  program_id := sw.program_id
  id := sw.id

/-- `ShaderWrapper.copy`: `copy.copy(self)` shares every reference, then
`vert_data` gets a fresh array (`np.array(self.vert_data)`), `vert_indices`
a fresh array when present, and the two dicts fresh copies ONLY when non-empty
(`if self.uniforms:` / `if self.texture_paths:` are false for empty dicts, so
an empty dict object stays shared between copy and original). -/
def copyRef (h : Heap V U) (sw : ShaderWrapperRef) :
    Heap V U × ShaderWrapperRef :=
  let pv := allocObj h (.varr (h.getV sw.vert_data))
  let pi : Option Nat × Heap V U :=
    match sw.vert_indices with
    | none => (none, pv.2)
    | some r =>
      let p := allocObj pv.2 (.iarr (pv.2.getI r))
      (some p.1, p.2)
  let pu : Nat × Heap V U :=
    if (pi.2.getU sw.uniforms).isEmpty then (sw.uniforms, pi.2)
    else allocObj pi.2 (.udict (pi.2.getU sw.uniforms))
  let pt : Nat × Heap V U :=
    if (pu.2.getS sw.texture_paths).isEmpty then (sw.texture_paths, pu.2)
    else allocObj pu.2 (.sdict (pu.2.getS sw.texture_paths))
  (pt.2, { sw with
    vert_data := pv.1
    vert_indices := pi.1
    uniforms := pu.1
    texture_paths := pt.1 })

/-! ## Helper lemmas: slices, flatten blocks, resolution outcomes -/

theorem length_setSlice {α : Type _} (arr b : List α) (s : Nat)
    (h : s + b.length ≤ arr.length) : (setSlice arr s b).length = arr.length := by
  simp only [setSlice, List.length_append, List.length_take, List.length_drop]
  omega

theorem take_setSlice {α : Type _} (arr b : List α) (s : Nat)
    (h : s + b.length ≤ arr.length) :
    (setSlice arr s b).take (s + b.length) = arr.take s ++ b := by
  have hs : (arr.take s).length = s := by
    rw [List.length_take]; omega
  rw [setSlice, List.append_assoc, List.take_append_eq_append_take, hs,
    List.take_of_length_le (by omega)]
  congr 1
  rw [List.take_append_eq_append_take, List.take_of_length_le (by omega)]
  simp

theorem drop_setSlice {α : Type _} (arr b : List α) (s : Nat)
    (h : s + b.length ≤ arr.length) :
    (setSlice arr s b).drop (s + b.length) = arr.drop (s + b.length) := by
  have hs : (arr.take s).length = s := by
    rw [List.length_take]; omega
  rw [setSlice, List.append_assoc, List.drop_append_eq_append_drop, hs,
    List.drop_of_length_le (by omega)]
  rw [List.drop_append_eq_append_drop, List.drop_of_length_le (by omega)]
  simp

/-- Extracting the `k`-th block back out of a flattened list of blocks. -/
theorem arrSlice_flatten (L : List (List α)) :
    ∀ k, (hk : k < L.length) →
      arrSlice L.flatten (((L.take k).map List.length).sum) (L.get ⟨k, hk⟩).length
        = L.get ⟨k, hk⟩ := by
  induction L with
  | nil => intro k hk; simp at hk
  | cons b rest ih =>
    intro k hk
    match k with
    | 0 =>
      simp [arrSlice, List.take_append_eq_append_take, List.take_length,
        List.take_of_length_le (Nat.le_refl _)]
    | k + 1 =>
      have hk' : k < rest.length := by simpa using hk
      have := ih k hk'
      simp only [List.take_succ_cons, List.map_cons, List.sum_cons, List.flatten_cons,
        List.get_cons_succ]
      rw [arrSlice, List.drop_append_eq_append_drop,
        List.drop_of_length_le (by omega), Nat.add_comm b.length,
        Nat.add_sub_cancel, List.nil_append, ← arrSlice, this]

theorem length_flatten_map {α : Type _} (L : List (List α)) :
    L.flatten.length = (L.map List.length).sum := List.length_flatten L

/-- A `notFound` insert target turns the whole substitution into `typeError`
(`str.replace(line, None)`). -/
theorem substList_target_notFound (f : String → ResolveOutcome)
    (line : String) (rest : List String) (cur : String)
    (h : f (insertTarget line) = .notFound) :
    substList f (line :: rest) cur = .typeError := by
  simp [substList, h]

/-- A still-recursing insert target keeps the whole substitution recursing. -/
theorem substList_target_noTermination (f : String → ResolveOutcome)
    (line : String) (rest : List String) (cur : String)
    (h : f (insertTarget line) = .noTermination) :
    substList f (line :: rest) cur = .noTermination := by
  simp [substList, h]

/-! ## Claim C10: palette literal -/

/-- C10: for `[(1,0,0), (0,1,0)]` the palette-literal helper returns exactly
`vec3[2](vec3(1, 0, 0),vec3(0, 1, 0))`; in general, for a list of `N` triples
it returns `vec3[N](...)` with one `vec3(r, g, b)` entry per triple,
comma-separated, in input order. -/
theorem c10_colormap_literal :
    getColormapCode [(1, 0, 0), (0, 1, 0)] = "vec3[2](vec3(1, 0, 0),vec3(0, 1, 0))" ∧
    getColormapCode [(3, 4, 5)] = "vec3[1](vec3(3, 4, 5))" ∧
    ∀ l : List (Nat × Nat × Nat),
      getColormapCode l = "vec3[" ++ toString l.length ++ "](" ++
        String.intercalate ","
          (l.map fun rgb => "vec3(" ++ toString rgb.1 ++ ", " ++
            toString rgb.2.1 ++ ", " ++ toString rgb.2.2 ++ ")") ++ ")" :=
  ⟨by decide, by decide, fun _ => rfl⟩

/-! ## Claim C2: missing files -/

/-- A filesystem with one file whose single `#INSERT` directive names a file
that does not exist. -/
def c2Fs : String → Option String := fun s =>
  if s = "main.glsl" then some "#INSERT gone.glsl" else none

/-- C2 counterexample: the claim says resolving a file whose `#INSERT` target
is missing yields the not-found value rather than throwing; in fact the
recursive call returns `None` and `result.replace(line, None)` raises
`TypeError`, so resolution of `main.glsl` ends in the `typeError` outcome, not
`notFound`. -/
theorem c2_counterexample :
    c2Fs (insertTarget "#INSERT gone.glsl") = none ∧
    getShaderCodeFromFile c2Fs 2 "main.glsl" = .typeError ∧
    ResolveOutcome.typeError ≠ ResolveOutcome.notFound := by
  refine ⟨by decide, by decide, by decide⟩

/-- C2 (amended): a missing or unreadable file itself resolves to the explicit
not-found value (never an exception), but when a file referenced by an
`#INSERT` directive is not found, the enclosing file's resolution raises a
`TypeError` (from `str.replace(line, None)`) instead of yielding the not-found
value. -/
theorem c2_missing_file_behavior :
    (∀ (fs : String → Option String) (fn : String) (fuel : Nat), fs fn = none →
      getShaderCodeFromFile fs (fuel + 1) fn = .notFound) ∧
    (∀ (fs : String → Option String) (fuel : Nat) (line cur : String)
        (rest : List String),
      getShaderCodeFromFile fs fuel (insertTarget line) = .notFound →
      substList (getShaderCodeFromFile fs fuel) (line :: rest) cur = .typeError) := by
  constructor
  · intro fs fn fuel h
    by_cases hfn : fn = ""
    · subst hfn; simp [getShaderCodeFromFile]
    · simp [getShaderCodeFromFile, hfn, h]
  · intro fs fuel line cur rest h
    exact substList_target_notFound _ _ _ _ h

/-- Witness for C2 (amended) at concrete inputs. -/
theorem c2_missing_file_behavior_witness :
    c2Fs "absent.glsl" = none ∧
    getShaderCodeFromFile c2Fs 1 "absent.glsl" = .notFound ∧
    substList (getShaderCodeFromFile c2Fs 1) ["#INSERT gone.glsl"] "#INSERT gone.glsl"
      = .typeError :=
  ⟨by decide,
   c2_missing_file_behavior.1 c2Fs "absent.glsl" 0 (by decide),
   c2_missing_file_behavior.2 c2Fs 1 "#INSERT gone.glsl" "#INSERT gone.glsl" [] (by decide)⟩

/-! ## Claim C3: cyclic includes -/

/-- The cyclic include graph of the claim: `inserts/a.glsl` has an `#INSERT`
directive for `b.glsl` and `inserts/b.glsl` one for `a.glsl`. -/
def cyclicFs : String → Option String := fun s =>
  if s = "inserts/a.glsl" then some "#INSERT b.glsl"
  else if s = "inserts/b.glsl" then some "#INSERT a.glsl"
  else none

/-- C3: on the cyclic include graph `A includes B, B includes A`, resolution
never reaches any result — for EVERY recursion budget the resolver is still
recursing (the Python original, which has no cycle guard, recurses until the
interpreter's recursion limit kills it); no explicit cycle error exists in the
code. -/
theorem c3_cyclic_includes_never_terminate :
    ∀ fuel, getShaderCodeFromFile cyclicFs fuel "inserts/a.glsl" = .noTermination ∧
      getShaderCodeFromFile cyclicFs fuel "inserts/b.glsl" = .noTermination := by
  intro fuel
  induction fuel with
  | zero => exact ⟨rfl, rfl⟩
  | succ k ih =>
    constructor
    · have hstep : getShaderCodeFromFile cyclicFs (k + 1) "inserts/a.glsl"
          = substList (getShaderCodeFromFile cyclicFs k) ["#INSERT b.glsl"]
              "#INSERT b.glsl" := rfl
      rw [hstep]
      exact substList_target_noTermination _ _ _ _ ih.2
    · have hstep : getShaderCodeFromFile cyclicFs (k + 1) "inserts/b.glsl"
          = substList (getShaderCodeFromFile cyclicFs k) ["#INSERT a.glsl"]
              "#INSERT a.glsl" := rfl
      rw [hstep]
      exact substList_target_noTermination _ _ _ _ ih.1

/-! ## Claim C4: include resolution -/

/-- C4: a found file whose content has exactly one directive line resolves to
that content with the directive line replaced (verbatim, via `str.replace`) by
the fully resolved text of the referenced file, which is looked up under the
fixed `inserts` subfolder (`insertTarget`); the hypothesis on the referenced
file being the RESOLVED outcome one fuel level down makes nested directives
resolve transitively. -/
theorem c4_insert_resolution (fs : String → Option String) (fuel : Nat)
    (fn text line code : String)
    (hfn : fn ≠ "") (hfs : fs fn = some text)
    (hlines : insertionLines text = [line])
    (hcode : getShaderCodeFromFile fs fuel (insertTarget line) = .found code) :
    getShaderCodeFromFile fs (fuel + 1) fn = .found (strReplace text line code) := by
  have h1 : getShaderCodeFromFile fs (fuel + 1) fn
      = substList (getShaderCodeFromFile fs fuel) (insertionLines text) text := by
    simp [getShaderCodeFromFile, hfn, hfs]
  rw [h1, hlines]
  simp [substList, hcode]

/-- A three-file filesystem with a nested include chain:
`main.glsl` inserts `foo.glsl`, which inserts `bar.glsl`. -/
def c4Fs : String → Option String := fun s =>
  if s = "main.glsl" then some "A\n#INSERT foo.glsl\nB"
  else if s = "inserts/foo.glsl" then some "F\n#INSERT bar.glsl"
  else if s = "inserts/bar.glsl" then some "BAR"
  else none

/-- Witness for C4 at a concrete nested include chain: `foo`'s own directive
is resolved transitively before being spliced into `main`. -/
theorem c4_insert_resolution_witness :
    insertionLines "A\n#INSERT foo.glsl\nB" = ["#INSERT foo.glsl"] ∧
    getShaderCodeFromFile c4Fs 2 (insertTarget "#INSERT foo.glsl") = .found "F\nBAR" ∧
    getShaderCodeFromFile c4Fs 3 "main.glsl" = .found "A\nF\nBAR\nB" := by
  refine ⟨by decide, by decide, ?_⟩
  exact c4_insert_resolution c4Fs 2 "main.glsl" "A\n#INSERT foo.glsl\nB"
    "#INSERT foo.glsl" "F\nBAR" (by decide) (by decide) (by decide) (by decide)

/-! ## Claims C5 and C9: identity and equality -/

/-- A small concrete descriptor used by several concrete instances. -/
def sampleSW : ShaderWrapper Nat Nat where
  vert_data := []
  vert_indices := none
  shader_folder := "quadratic_bezier"
  uniforms := []
  texture_paths := []
  depth_test := false
  use_clip_plane := false
  render_primitive := "5"
  program_code := ⟨some "V", none, some "F"⟩
  program_id := 0
  id := ""

/-- A stand-in for Python's opaque `hash`. -/
def c5Hash : String → Int := fun _ => 0

/-- Uniforms `a ↦ 1, b ↦ 2` inserted in one order... -/
def c5swA : ShaderWrapper Nat Nat := { sampleSW with uniforms := [("a", 1), ("b", 2)] }

/-- ...and in the other order: value-wise the same map. -/
def c5swB : ShaderWrapper Nat Nat := { sampleSW with uniforms := [("b", 2), ("a", 1)] }

/-- C5 counterexample: two descriptors with equal folder, source, texture map,
depth flag, primitive tag and VALUE-WISE equal uniform maps differing only in
insertion order.  `create_program_id` agrees, but `create_id` serializes the
uniforms dict with `str()`, which follows insertion order, so the derived `id`s
differ — the claim's "insertion order irrelevant" fails for `id`. -/
theorem c5_counterexample :
    (∀ kv ∈ c5swA.uniforms, dictLookup c5swB.uniforms kv.1 = some kv.2) ∧
    (∀ kv ∈ c5swB.uniforms, dictLookup c5swA.uniforms kv.1 = some kv.2) ∧
    c5swA.shader_folder = c5swB.shader_folder ∧
    c5swA.program_code = c5swB.program_code ∧
    c5swA.texture_paths = c5swB.texture_paths ∧
    c5swA.depth_test = c5swB.depth_test ∧
    c5swA.render_primitive = c5swB.render_primitive ∧
    (refreshId c5Hash c5swA).program_id = (refreshId c5Hash c5swB).program_id ∧
    (refreshId c5Hash c5swA).id ≠ (refreshId c5Hash c5swB).id := by
  decide

/-- C5 (amended): identity determinism holds when the uniform and texture maps
are equal as insertion-ordered sequences (not merely value-wise): for any two
descriptors with equal program folder, equal resolved source, equal ordered
uniform and texture maps, equal depth flag and equal primitive tag, both
derived identities agree, for every hash function, regardless of any
difference in vertex or index buffers. -/
theorem c5_identity_determinism {V U : Type} [ToString U]
    (hashFn : String → Int) (a b : ShaderWrapper V U)
    (hsrc : a.program_code = b.program_code)
    (_hfold : a.shader_folder = b.shader_folder)
    (hu : a.uniforms = b.uniforms)
    (ht : a.texture_paths = b.texture_paths)
    (hd : a.depth_test = b.depth_test)
    (hp : a.render_primitive = b.render_primitive) :
    (refreshId hashFn a).program_id = (refreshId hashFn b).program_id ∧
    (refreshId hashFn a).id = (refreshId hashFn b).id := by
  have hpid : createProgramId hashFn a = createProgramId hashFn b := by
    simp [createProgramId, hsrc]
  exact ⟨by simp [refreshId, hpid],
    by simp [refreshId, createId, hpid, hu, ht, hd, hp]⟩

/-- A descriptor with payload differing from `c5swA`'s but the same
configuration. -/
def c5wDiff : ShaderWrapper Nat Nat :=
  { c5swA with vert_data := [1, 2, 3], vert_indices := some [0, 1] }

/-- Witness for C5 (amended): same configuration, different buffers, equal
identities. -/
theorem c5_identity_determinism_witness :
    (refreshId c5Hash c5swA).program_id = (refreshId c5Hash c5wDiff).program_id ∧
    (refreshId c5Hash c5swA).id = (refreshId c5Hash c5wDiff).id ∧
    c5swA.vert_data ≠ c5wDiff.vert_data :=
  ⟨(c5_identity_determinism c5Hash c5swA c5wDiff rfl rfl rfl rfl rfl rfl).1,
   (c5_identity_determinism c5Hash c5swA c5wDiff rfl rfl rfl rfl rfl rfl).2,
   by decide⟩

/-- `all(self.uniforms[key] == other.uniforms[key] for key in self.uniforms)`
succeeds with `True` exactly when every entry of the FIRST dict is present
with an equal value in the second. -/
theorem dictEntriesAgree_eq_some_true_iff {α : Type _} [DecidableEq α]
    (d1 d2 : List (String × α)) :
    dictEntriesAgree d1 d2 = some true ↔
      ∀ kv ∈ d1, dictLookup d2 kv.1 = some kv.2 := by
  induction d1 with
  | nil => simp [dictEntriesAgree]
  | cons kv rest ih =>
    simp only [dictEntriesAgree]
    cases hlk : dictLookup d2 kv.1 with
    | none => simp [hlk]
    | some w =>
      by_cases hw : kv.2 = w
      · subst hw
        simp [ih, hlk]
      · change (if kv.2 = w then dictEntriesAgree rest d2 else some false)
            = some true ↔ _
        rw [if_neg hw]
        constructor
        · intro h; exact absurd h (by decide)
        · intro hall
          have h5 := hall kv (List.mem_cons_self kv rest)
          rw [hlk] at h5
          exact absurd (Option.some.inj h5).symm hw

/-- The descriptor with no uniforms... -/
def c9swA : ShaderWrapper Nat Nat := sampleSW

/-- ...and one with an extra uniform entry, otherwise identical. -/
def c9swB : ShaderWrapper Nat Nat := { sampleSW with uniforms := [("x", 1)] }

/-- C9 counterexample: `__eq__` iterates only over SELF's uniform keys, so a
descriptor with an empty uniform map compares equal to one that has extra
uniforms — `equals` returns true although the two UniformMaps disagree
structurally (key `x` is absent from one and maps to 1 in the other),
refuting the "only if" direction of the claim. -/
theorem c9_counterexample :
    shaderWrapperEq c9swA c9swB = some true ∧
    c9swA.uniforms ≠ c9swB.uniforms ∧
    dictLookup c9swA.uniforms "x" = none ∧
    dictLookup c9swB.uniforms "x" = some 1 := by
  decide

/-- C9 (amended): `__eq__` (when it does not raise `KeyError`) returns true
iff vertex data, index data, program folder, depth flag and primitive tag
agree, and every key of the FIRST descriptor's uniform and texture maps is
present with an equal value in the second (extra keys of the second are
ignored).  Geometry source and the clip-plane flag are not compared. -/
theorem c9_equality_characterization {V U : Type} [DecidableEq V] [DecidableEq U]
    (a b : ShaderWrapper V U) :
    shaderWrapperEq a b = some true ↔
      (a.vert_data = b.vert_data ∧ a.vert_indices = b.vert_indices ∧
       a.shader_folder = b.shader_folder ∧
       (∀ kv ∈ a.uniforms, dictLookup b.uniforms kv.1 = some kv.2) ∧
       (∀ kv ∈ a.texture_paths, dictLookup b.texture_paths kv.1 = some kv.2) ∧
       a.depth_test = b.depth_test ∧ a.render_primitive = b.render_primitive) := by
  rw [← dictEntriesAgree_eq_some_true_iff a.uniforms b.uniforms,
    ← dictEntriesAgree_eq_some_true_iff a.texture_paths b.texture_paths]
  cases h1 : dictEntriesAgree a.uniforms b.uniforms with
  | none => simp [shaderWrapperEq, h1]
  | some u =>
    cases h2 : dictEntriesAgree a.texture_paths b.texture_paths with
    | none => simp [shaderWrapperEq, h1, h2]
    | some t =>
      simp only [shaderWrapperEq, h1, h2, Option.some.injEq, Bool.and_eq_true,
        decide_eq_true_eq]
      constructor
      · rintro ⟨⟨⟨⟨⟨⟨h3, h4⟩, h5⟩, h6⟩, h7⟩, h8⟩, h9⟩
        exact ⟨h3, h4, h5, by rw [h6], by rw [h7], h8, h9⟩
      · rintro ⟨h3, h4, h5, h6, h7, h8, h9⟩
        refine ⟨⟨⟨⟨⟨⟨h3, h4⟩, h5⟩, ?_⟩, ?_⟩, h8⟩, h9⟩
        · cases h6; rfl
        · cases h7; rfl

/-! ## Claims C6 and C7: merge side effects and error behaviour -/

/-- The cursor loop of `read_in` only writes the vertex/index buffers: the
stored identities survive it. -/
theorem readInLoop_id_invariant {V U : Type} :
    ∀ (sws : List (ShaderWrapper V U)) (acc : ShaderWrapper V U) (np nv : Nat),
      (readInLoop sws acc np nv).id = acc.id ∧
      (readInLoop sws acc np nv).program_id = acc.program_id := by
  intro sws
  induction sws with
  | nil => intro acc np nv; exact ⟨rfl, rfl⟩
  | cons s rest ih =>
    intro acc np nv
    simp only [readInLoop]
    split
    · exact ⟨((ih _ _ _).1).trans rfl, ((ih _ _ _).2).trans rfl⟩
    · exact ⟨((ih _ _ _).1).trans rfl, ((ih _ _ _).2).trans rfl⟩

/-- The cursor loop never creates an index buffer on a target that lacks
one. -/
theorem readInLoop_none_indices {V U : Type} :
    ∀ (sws : List (ShaderWrapper V U)) (acc : ShaderWrapper V U) (np nv : Nat),
      acc.vert_indices = none →
      (readInLoop sws acc np nv).vert_indices = none := by
  intro sws
  induction sws with
  | nil => intro acc np nv h; exact h
  | cons s rest ih =>
    intro acc np nv h
    simp only [readInLoop]
    split
    · rename_i tIdx sIdx heq _
      rw [h] at heq
      cases heq
    · exact ih _ _ _ h

/-- `read_in` returning normally leaves `id` and `program_id` untouched. -/
theorem readIn_ok_ids {V U : Type} [Inhabited V] (sw : ShaderWrapper V U)
    (sws : List (ShaderWrapper V U)) (m : ShaderWrapper V U)
    (hm : readIn sw sws = .ok m) : m.id = sw.id ∧ m.program_id = sw.program_id := by
  unfold readIn at hm
  cases hvi : sw.vert_indices with
  | none =>
    simp only [hvi, Except.ok.injEq] at hm
    rw [← hm]
    exact ⟨(readInLoop_id_invariant sws _ 0 0).1.trans rfl,
      (readInLoop_id_invariant sws _ 0 0).2.trans rfl⟩
  | some idx =>
    simp only [hvi] at hm
    by_cases hall : sws.all fun s => s.vert_indices.isSome
    · rw [if_pos hall] at hm
      simp only [Except.ok.injEq] at hm
      rw [← hm]
      exact ⟨(readInLoop_id_invariant sws _ 0 0).1.trans rfl,
        (readInLoop_id_invariant sws _ 0 0).2.trans rfl⟩
    · rw [if_neg hall] at hm
      cases hm

/-- `combine_with` returning normally leaves `id` and `program_id`
untouched. -/
theorem combineWith_ok_ids {V U : Type} [Inhabited V] (sw : ShaderWrapper V U)
    (others : List (ShaderWrapper V U)) (m : ShaderWrapper V U)
    (hm : combineWith sw others = .ok m) :
    m.id = sw.id ∧ m.program_id = sw.program_id := by
  unfold combineWith at hm
  by_cases h : others.length > 0
  · rw [if_pos h] at hm
    exact readIn_ok_ids _ _ _ hm
  · rw [if_neg h] at hm
    simp only [Except.ok.injEq] at hm
    rw [← hm]
    exact ⟨rfl, rfl⟩

/-- C6: in-place mutation of any heap object — in particular a descriptor's
vertex or index array — leaves the descriptor's stored `id` and `program_id`
unchanged (they are scalar fields, recomputed only by an explicit
`refresh_id`); and a merge via `read_in` or `combine_with` likewise returns a
descriptor with `id` and `program_id` equal to the target's. -/
theorem c6_payload_mutation_preserves_id {V U : Type} [Inhabited V]
    (h : Heap V U) (swr : ShaderWrapperRef) (r : Nat) (o : HeapObj V U)
    (sw : ShaderWrapper V U) (sws others : List (ShaderWrapper V U))
    (m m' : ShaderWrapper V U)
    (hm : readIn sw sws = .ok m) (hc : combineWith sw others = .ok m') :
    (derefSW (writeObj h r o) swr).id = (derefSW h swr).id ∧
    (derefSW (writeObj h r o) swr).program_id = (derefSW h swr).program_id ∧
    m.id = sw.id ∧ m.program_id = sw.program_id ∧
    m'.id = sw.id ∧ m'.program_id = sw.program_id :=
  ⟨rfl, rfl, (readIn_ok_ids sw sws m hm).1, (readIn_ok_ids sw sws m hm).2,
   (combineWith_ok_ids sw others m' hc).1, (combineWith_ok_ids sw others m' hc).2⟩

/-- A one-vertex descriptor with a nontrivial stored identity. -/
def c6sw : ShaderWrapper Nat Nat :=
  { sampleSW with vert_data := [10], id := "the-id", program_id := 7 }

/-- A heap whose cell 0 holds `c6sw`'s vertex array. -/
def c6Heap : Heap Nat Nat := ⟨fun _ => .varr [10], 1⟩

/-- The reference-level view of `c6sw` with its array in cell 0. -/
def c6swr : ShaderWrapperRef where
  vert_data := 0
  vert_indices := none
  shader_folder := "quadratic_bezier"
  uniforms := 0
  texture_paths := 0
  depth_test := false
  use_clip_plane := false
  render_primitive := "5"
  program_code := ⟨some "V", none, some "F"⟩
  program_id := 7
  id := "the-id"

/-- Witness for C6: overwriting the vertex array in place and merging two
copies both leave the stored identities intact. -/
theorem c6_payload_mutation_preserves_id_witness :
    (derefSW (writeObj c6Heap 0 (HeapObj.varr [99])) c6swr).id
      = (derefSW c6Heap c6swr).id ∧
    (derefSW (writeObj c6Heap 0 (HeapObj.varr [99])) c6swr).program_id
      = (derefSW c6Heap c6swr).program_id ∧
    ({ c6sw with vert_data := [10, 10] } : ShaderWrapper Nat Nat).id = c6sw.id ∧
    ({ c6sw with vert_data := [10, 10] } : ShaderWrapper Nat Nat).program_id
      = c6sw.program_id ∧
    ({ c6sw with vert_data := [10, 10] } : ShaderWrapper Nat Nat).id = c6sw.id ∧
    ({ c6sw with vert_data := [10, 10] } : ShaderWrapper Nat Nat).program_id
      = c6sw.program_id :=
  c6_payload_mutation_preserves_id c6Heap c6swr 0 (.varr [99]) c6sw
    [c6sw, c6sw] [c6sw] { c6sw with vert_data := [10, 10] }
    { c6sw with vert_data := [10, 10] } (by rfl) (by rfl)

/-- A merge target carrying no index buffer. -/
def c7Target : ShaderWrapper Nat Nat := { sampleSW with vert_data := [7] }

/-- A merge source carrying an index buffer. -/
def c7Source : ShaderWrapper Nat Nat :=
  { sampleSW with vert_data := [8], vert_indices := some [0] }

/-- A merge target carrying an index buffer. -/
def c7IdxTarget : ShaderWrapper Nat Nat :=
  { sampleSW with vert_data := [7], vert_indices := some [0] }

/-- C7 counterexample: merging a source that HAS an index buffer into a target
that lacks one reports no error at all — `read_in` succeeds and silently
discards the source's indices (the guard `self.vert_indices is not None and
sw.vert_indices is not None` skips them), contradicting the claim that an
inconsistent index-buffer presence is reported explicitly to the caller. -/
theorem c7_counterexample :
    c7Target.vert_indices = none ∧
    c7Source.vert_indices = some [0] ∧
    readIn c7Target [c7Source] = Except.ok { c7Target with vert_data := [8] } ∧
    ({ c7Target with vert_data := [8] } : ShaderWrapper Nat Nat).vert_indices
      = none :=
  ⟨rfl, rfl, rfl, rfl⟩

/-- C7 (amended): the two inconsistent-index-presence cases behave
asymmetrically, and neither matches the claim: when the target has an index
buffer and some source lacks one, `read_in` raises a `TypeError` from
`len(None)` (an unchecked exception, modelled `Except.error`, rather than an
explicit mismatch report); when the target lacks an index buffer, the merge
succeeds with no error and the sources' index buffers are silently ignored.
(A vertex-layout mismatch is outside this model: a single record type `V`
forces all layouts to agree.) -/
theorem c7_merge_mismatch_behavior {V U : Type} [Inhabited V]
    (sw : ShaderWrapper V U) (sws : List (ShaderWrapper V U)) (idx : List Nat)
    (hidx : sw.vert_indices = some idx)
    (hmix : (sws.all fun s => s.vert_indices.isSome) = false)
    (sw2 : ShaderWrapper V U) (h2 : sw2.vert_indices = none) :
    readIn sw sws = Except.error () ∧
    ∃ m, readIn sw2 sws = Except.ok m ∧ m.vert_indices = none := by
  constructor
  · unfold readIn
    simp only [hidx]
    rw [if_neg (by simp [hmix])]
  · unfold readIn
    simp only [h2]
    exact ⟨_, rfl, readInLoop_none_indices sws _ 0 0 rfl⟩

/-- Witness for C7 (amended): a mixed-presence merge errors when the target
has indices, and silently drops indices when it does not. -/
theorem c7_merge_mismatch_behavior_witness :
    readIn c7IdxTarget [c7Source, c7Target] = Except.error () ∧
    ∃ m, readIn c7Target [c7Source, c7Target] = Except.ok m ∧
      m.vert_indices = none :=
  c7_merge_mismatch_behavior c7IdxTarget [c7Source, c7Target] [0] (by rfl)
    (by rfl) c7Target (by rfl)

/-! ## Claim C1: merge correctness -/

theorem length_resizeArray {α : Type _} [Inhabited α] (arr : List α) (n : Nat) :
    (resizeArray arr n).length = n := by
  unfold resizeArray
  split
  · assumption
  · simp

theorem sumVerts_nil {V U : Type} : sumVerts ([] : List (ShaderWrapper V U)) = 0 := rfl

theorem sumVerts_cons {V U : Type} (s : ShaderWrapper V U)
    (rest : List (ShaderWrapper V U)) :
    sumVerts (s :: rest) = s.vert_data.length + sumVerts rest := by
  simp [sumVerts]

theorem sumIdx_nil {V U : Type} : sumIdx ([] : List (ShaderWrapper V U)) = 0 := rfl

theorem sumIdx_cons {V U : Type} (s : ShaderWrapper V U)
    (rest : List (ShaderWrapper V U)) :
    sumIdx (s :: rest) = (s.vert_indices.getD []).length + sumIdx rest := by
  simp [sumIdx]

/-- The vertex-write offset of the `k`-th source: the sum of the vertex counts
of the sources before it. -/
def voffset {V U : Type} (sws : List (ShaderWrapper V U)) (k : Nat) : Nat :=
  ((sws.take k).map fun s => s.vert_data.length).sum

/-- The index-write offset of the `k`-th source: the sum of the index counts
of the sources before it. -/
def ioffset {V U : Type} (sws : List (ShaderWrapper V U)) (k : Nat) : Nat :=
  ((sws.take k).map fun s => (s.vert_indices.getD []).length).sum

/-- The index blocks the cursor loop writes, starting from vertex cursor `np`:
the `k`-th block is the `k`-th source's indices, each shifted by the vertex
cursor at that point. -/
def offsetBlocks {V U : Type} :
    List (ShaderWrapper V U) → Nat → List (List Nat)
  | [], _ => []
  | s :: rest, np =>
    ((s.vert_indices.getD []).map fun i => i + np)
      :: offsetBlocks rest (np + s.vert_data.length)

theorem offsetBlocks_map_length {V U : Type} :
    ∀ (sws : List (ShaderWrapper V U)) (np : Nat),
      (offsetBlocks sws np).map List.length
        = sws.map fun s => (s.vert_indices.getD []).length := by
  intro sws
  induction sws with
  | nil => intro np; rfl
  | cons s rest ih => intro np; simp [offsetBlocks, ih]

theorem offsetBlocks_length {V U : Type} (sws : List (ShaderWrapper V U))
    (np : Nat) : (offsetBlocks sws np).length = sws.length := by
  have := congrArg List.length (offsetBlocks_map_length sws np)
  simpa using this

theorem offsetBlocks_get {V U : Type} :
    ∀ (sws : List (ShaderWrapper V U)) (np k : Nat) (hk : k < sws.length)
      (hk' : k < (offsetBlocks sws np).length),
      (offsetBlocks sws np).get ⟨k, hk'⟩
        = ((sws.get ⟨k, hk⟩).vert_indices.getD []).map
            fun i => i + (np + voffset sws k) := by
  intro sws
  induction sws with
  | nil => intro np k hk; simp at hk
  | cons s rest ih =>
    intro np k hk hk'
    match k with
    | 0 => simp [offsetBlocks, voffset]
    | k + 1 =>
      have hk2 : k < rest.length := by simpa using hk
      have hk2' : k < (offsetBlocks rest (np + s.vert_data.length)).length := by
        rw [offsetBlocks_length]; exact hk2
      have := ih (np + s.vert_data.length) k hk2 hk2'
      simp only [offsetBlocks, List.get_cons_succ, this, voffset,
        List.take_succ_cons, List.map_cons, List.sum_cons]
      congr 1
      funext i
      congr 1
      omega

/-- Dropping at or beyond the end of a written slice sees the original
array. -/
theorem drop_setSlice_ge {α : Type _} (arr b : List α) (s m : Nat)
    (hs : s + b.length ≤ arr.length) (hm : s + b.length ≤ m) :
    (setSlice arr s b).drop m = arr.drop m := by
  have hst : (arr.take s).length = s := by rw [List.length_take]; omega
  rw [setSlice, List.append_assoc, List.drop_append_eq_append_drop, hst,
    List.drop_of_length_le (by omega), List.nil_append,
    List.drop_append_eq_append_drop, List.drop_of_length_le (by omega),
    List.nil_append]
  rw [List.drop_drop]
  congr 1
  omega

/-- What the cursor loop does to the vertex buffer: the region
`[np, np + Σ vertex counts)` is overwritten by the sources' vertex blocks
concatenated in input order, and everything outside that region survives. -/
theorem readInLoop_vert_spec {V U : Type} :
    ∀ (sws : List (ShaderWrapper V U)) (acc : ShaderWrapper V U) (np nv : Nat),
      np + sumVerts sws ≤ acc.vert_data.length →
      (readInLoop sws acc np nv).vert_data
        = acc.vert_data.take np ++ (sws.map fun s => s.vert_data).flatten
            ++ acc.vert_data.drop (np + sumVerts sws) := by
  intro sws
  induction sws with
  | nil =>
    intro acc np nv h
    simp only [readInLoop, List.map_nil, List.flatten_nil, sumVerts_nil,
      Nat.add_zero, List.nil_append, List.append_nil]
    exact (List.take_append_drop np acc.vert_data).symm
  | cons s rest ih =>
    intro acc np nv h
    rw [sumVerts_cons] at h
    have hsl : np + s.vert_data.length ≤ acc.vert_data.length := by omega
    have key : ∀ (acc2 : ShaderWrapper V U) (nv2 : Nat),
        acc2.vert_data = setSlice acc.vert_data np s.vert_data →
        (readInLoop rest acc2 (np + s.vert_data.length) nv2).vert_data
          = acc.vert_data.take np ++ ((s :: rest).map fun t => t.vert_data).flatten
              ++ acc.vert_data.drop (np + sumVerts (s :: rest)) := by
      intro acc2 nv2 hacc2
      have hb : (np + s.vert_data.length) + sumVerts rest ≤ acc2.vert_data.length := by
        rw [hacc2, length_setSlice _ _ _ hsl]; omega
      rw [ih acc2 (np + s.vert_data.length) nv2 hb, hacc2,
        take_setSlice _ _ _ hsl,
        drop_setSlice_ge _ _ _ _ hsl (by omega)]
      rw [sumVerts_cons, List.map_cons, List.flatten_cons,
        show np + (s.vert_data.length + sumVerts rest)
            = np + s.vert_data.length + sumVerts rest from by omega]
      simp [List.append_assoc]
    simp only [readInLoop]
    split
    · exact key _ _ rfl
    · exact key _ _ rfl

/-- What the cursor loop does to the index buffer when the target and all
sources carry one: the region `[nv, nv + Σ index counts)` is overwritten by
the sources' index blocks in input order, each block's indices shifted by the
vertex cursor at the time it is copied; everything outside survives. -/
theorem readInLoop_idx_spec {V U : Type} :
    ∀ (sws : List (ShaderWrapper V U)) (acc : ShaderWrapper V U) (np nv : Nat)
      (tIdx : List Nat),
      acc.vert_indices = some tIdx →
      (∀ s ∈ sws, s.vert_indices.isSome) →
      nv + sumIdx sws ≤ tIdx.length →
      (readInLoop sws acc np nv).vert_indices
        = some (tIdx.take nv ++ (offsetBlocks sws np).flatten
            ++ tIdx.drop (nv + sumIdx sws)) := by
  intro sws
  induction sws with
  | nil =>
    intro acc np nv tIdx hacc _hall _h
    simp only [readInLoop, offsetBlocks, List.flatten_nil, sumIdx_nil,
      Nat.add_zero, List.nil_append, List.append_nil, hacc]
    rw [List.take_append_drop]
  | cons s rest ih =>
    intro acc np nv tIdx hacc hall h
    have hs : s.vert_indices.isSome := hall s (List.mem_cons_self s rest)
    obtain ⟨sIdx, hsIdx⟩ := Option.isSome_iff_exists.mp hs
    rw [sumIdx_cons, hsIdx] at h
    simp only [Option.getD_some] at h
    have hsl : nv + (sIdx.map fun i => i + np).length ≤ tIdx.length := by
      rw [List.length_map]; omega
    simp only [readInLoop, hacc, hsIdx]
    rw [ih _ (np + s.vert_data.length) (nv + sIdx.length) _ rfl
      (fun t ht => hall t (List.mem_cons_of_mem s ht))
      (by rw [length_setSlice _ _ _ hsl]; omega)]
    rw [show nv + sIdx.length
        = nv + (List.map (fun i => i + np) sIdx).length from by
          rw [List.length_map]]
    rw [take_setSlice _ _ _ hsl,
      drop_setSlice_ge _ _ _ _ hsl (by rw [List.length_map]; omega)]
    rw [offsetBlocks, hsIdx, List.flatten_cons, sumIdx_cons, hsIdx]
    simp only [Option.getD_some, List.length_map]
    rw [show nv + (sIdx.length + sumIdx rest)
        = nv + sIdx.length + sumIdx rest from by omega]
    simp [List.append_assoc]

/-- Length and block extraction for the concatenated vertex blocks. -/
theorem flatten_vert_spec {V U : Type} (sws : List (ShaderWrapper V U)) :
    ((sws.map fun s => s.vert_data).flatten).length = sumVerts sws ∧
    ∀ k, (hk : k < sws.length) →
      arrSlice ((sws.map fun s => s.vert_data).flatten) (voffset sws k)
        ((sws.get ⟨k, hk⟩).vert_data.length) = (sws.get ⟨k, hk⟩).vert_data := by
  constructor
  · rw [List.length_flatten, List.map_map]
    rfl
  · intro k hk
    have hk' : k < (sws.map fun s => s.vert_data).length := by
      rw [List.length_map]; exact hk
    have hoff : (((sws.map fun s => s.vert_data).take k).map List.length).sum
        = voffset sws k := by
      rw [← List.map_take, List.map_map]
      rfl
    have hget : (sws.map fun s => s.vert_data).get ⟨k, hk'⟩
        = (sws.get ⟨k, hk⟩).vert_data := by
      simp
    have := arrSlice_flatten (sws.map fun s => s.vert_data) k hk'
    rw [hoff, hget] at this
    exact this

/-- Length and block extraction for the concatenated shifted index blocks. -/
theorem flatten_idx_spec {V U : Type} (sws : List (ShaderWrapper V U)) :
    ((offsetBlocks sws 0).flatten).length = sumIdx sws ∧
    ∀ k, (hk : k < sws.length) →
      arrSlice ((offsetBlocks sws 0).flatten) (ioffset sws k)
        ((sws.get ⟨k, hk⟩).vert_indices.getD []).length
        = ((sws.get ⟨k, hk⟩).vert_indices.getD []).map
            fun i => i + voffset sws k := by
  constructor
  · rw [List.length_flatten, offsetBlocks_map_length]
    rfl
  · intro k hk
    have hk' : k < (offsetBlocks sws 0).length := by
      rw [offsetBlocks_length]; exact hk
    have hoff : (((offsetBlocks sws 0).take k).map List.length).sum
        = ioffset sws k := by
      rw [List.map_take, offsetBlocks_map_length, ← List.map_take]
      rfl
    have hget : (offsetBlocks sws 0).get ⟨k, hk'⟩
        = ((sws.get ⟨k, hk⟩).vert_indices.getD []).map
            fun i => i + voffset sws k := by
      rw [offsetBlocks_get sws 0 k hk hk']
      simp
    have hmain := arrSlice_flatten (offsetBlocks sws 0) k hk'
    rw [hoff, hget, List.length_map] at hmain
    exact hmain

/-- C1: merging descriptors with vertex counts `v1..vN` (and, when index
buffers are present on the target and all sources, index counts `i1..iN`)
yields a merged vertex buffer that IS the concatenation of the source vertex
blocks in strict input order (hence has length `Σ vi`, and the `k`-th block
is recoverable at offset `v1+..+v(k-1)`), and a merged index buffer of length
`Σ ij` whose `k`-th block equals the `k`-th source's indices each increased
by `v1+..+v(k-1)`. -/
theorem c1_merge_correctness {V U : Type} [Inhabited V]
    (sw : ShaderWrapper V U) (sws : List (ShaderWrapper V U))
    (hall : sw.vert_indices.isSome → ∀ s ∈ sws, s.vert_indices.isSome) :
    ∃ m, readIn sw sws = Except.ok m ∧
      m.vert_data = (sws.map fun s => s.vert_data).flatten ∧
      m.vert_data.length = sumVerts sws ∧
      (∀ k, (hk : k < sws.length) →
        arrSlice m.vert_data (voffset sws k) ((sws.get ⟨k, hk⟩).vert_data.length)
          = (sws.get ⟨k, hk⟩).vert_data) ∧
      (∀ tIdx0, sw.vert_indices = some tIdx0 →
        ∃ mIdx, m.vert_indices = some mIdx ∧
          mIdx.length = sumIdx sws ∧
          ∀ k, (hk : k < sws.length) →
            arrSlice mIdx (ioffset sws k)
              ((sws.get ⟨k, hk⟩).vert_indices.getD []).length
              = ((sws.get ⟨k, hk⟩).vert_indices.getD []).map
                  fun i => i + voffset sws k) := by
  cases hvi : sw.vert_indices with
  | none =>
    have hbound : 0 + sumVerts sws
        ≤ (resizeArray sw.vert_data (sumVerts sws)).length := by
      rw [length_resizeArray]; omega
    have hvd := readInLoop_vert_spec sws
      { sw with vert_data := resizeArray sw.vert_data (sumVerts sws) } 0 0 hbound
    simp only [List.take_zero, List.nil_append, Nat.zero_add] at hvd
    rw [List.drop_of_length_le (by rw [length_resizeArray])] at hvd
    rw [List.append_nil] at hvd
    refine ⟨readInLoop sws
      { sw with vert_data := resizeArray sw.vert_data (sumVerts sws) } 0 0,
      by simp only [readIn, hvi], hvd, ?_, ?_, ?_⟩
    · rw [hvd]; exact (flatten_vert_spec sws).1
    · intro k hk; rw [hvd]; exact (flatten_vert_spec sws).2 k hk
    · intro tIdx0 h0
      exact Option.noConfusion h0
  | some idx =>
    have hs : ∀ s ∈ sws, s.vert_indices.isSome = true :=
      hall (by rw [hvi]; rfl)
    have hsall : (sws.all fun s => s.vert_indices.isSome) = true :=
      List.all_eq_true.mpr hs
    have hbound : 0 + sumVerts sws
        ≤ (resizeArray sw.vert_data (sumVerts sws)).length := by
      rw [length_resizeArray]; omega
    have hvd := readInLoop_vert_spec sws
      { sw with
        vert_data := resizeArray sw.vert_data (sumVerts sws)
        vert_indices := some (resizeArray idx (sumIdx sws)) } 0 0 hbound
    simp only [List.take_zero, List.nil_append, Nat.zero_add] at hvd
    rw [List.drop_of_length_le (by rw [length_resizeArray])] at hvd
    rw [List.append_nil] at hvd
    have hbi : 0 + sumIdx sws ≤ (resizeArray idx (sumIdx sws)).length := by
      rw [length_resizeArray]; omega
    have hidx := readInLoop_idx_spec sws
      { sw with
        vert_data := resizeArray sw.vert_data (sumVerts sws)
        vert_indices := some (resizeArray idx (sumIdx sws)) } 0 0
      (resizeArray idx (sumIdx sws)) rfl hs hbi
    simp only [List.take_zero, List.nil_append, Nat.zero_add] at hidx
    rw [List.drop_of_length_le (by rw [length_resizeArray])] at hidx
    rw [List.append_nil] at hidx
    refine ⟨readInLoop sws
      { sw with
        vert_data := resizeArray sw.vert_data (sumVerts sws)
        vert_indices := some (resizeArray idx (sumIdx sws)) } 0 0,
      ?_, hvd, ?_, ?_, ?_⟩
    · simp only [readIn, hvi]
      rw [if_pos hsall]
    · rw [hvd]; exact (flatten_vert_spec sws).1
    · intro k hk; rw [hvd]; exact (flatten_vert_spec sws).2 k hk
    · intro tIdx0 _h0
      exact ⟨(offsetBlocks sws 0).flatten, hidx,
        (flatten_idx_spec sws).1, (flatten_idx_spec sws).2⟩

/-- A two-vertex merge target/source with an index buffer. -/
def c1SrcA : ShaderWrapper Nat Nat :=
  { sampleSW with vert_data := [1, 2], vert_indices := some [0, 1, 0] }

/-- A one-vertex merge source with an index buffer. -/
def c1SrcB : ShaderWrapper Nat Nat :=
  { sampleSW with vert_data := [3], vert_indices := some [0] }

/-- Witness for C1 at a concrete two-source merge with index buffers. -/
theorem c1_merge_correctness_witness :
    ∃ m, readIn c1SrcA [c1SrcA, c1SrcB] = Except.ok m ∧
      m.vert_data = ([c1SrcA, c1SrcB].map fun s => s.vert_data).flatten ∧
      m.vert_data.length = sumVerts [c1SrcA, c1SrcB] ∧
      (∀ k, (hk : k < ([c1SrcA, c1SrcB] : List (ShaderWrapper Nat Nat)).length) →
        arrSlice m.vert_data (voffset [c1SrcA, c1SrcB] k)
            (([c1SrcA, c1SrcB].get ⟨k, hk⟩).vert_data.length)
          = ([c1SrcA, c1SrcB].get ⟨k, hk⟩).vert_data) ∧
      (∀ tIdx0, c1SrcA.vert_indices = some tIdx0 →
        ∃ mIdx, m.vert_indices = some mIdx ∧
          mIdx.length = sumIdx [c1SrcA, c1SrcB] ∧
          ∀ k, (hk : k < ([c1SrcA, c1SrcB] : List (ShaderWrapper Nat Nat)).length) →
            arrSlice mIdx (ioffset [c1SrcA, c1SrcB] k)
              (([c1SrcA, c1SrcB].get ⟨k, hk⟩).vert_indices.getD []).length
              = (([c1SrcA, c1SrcB].get ⟨k, hk⟩).vert_indices.getD []).map
                  fun i => i + voffset [c1SrcA, c1SrcB] k) :=
  c1_merge_correctness c1SrcA [c1SrcA, c1SrcB] (by decide)

/-! ## Claim C8: copy isolation -/

theorem mem_allocObj_lt {V U : Type} (h : Heap V U) (o : HeapObj V U) (r : Nat)
    (hr : r < h.next) : ((allocObj h o).2).mem r = h.mem r := by
  have hne : r ≠ h.next := by omega
  simp [allocObj, hne]

theorem getU_allocObj_lt {V U : Type} (h : Heap V U) (o : HeapObj V U) (r : Nat)
    (hr : r < h.next) : ((allocObj h o).2).getU r = h.getU r := by
  unfold Heap.getU
  rw [mem_allocObj_lt h o r hr]

theorem getS_allocObj_lt {V U : Type} (h : Heap V U) (o : HeapObj V U) (r : Nat)
    (hr : r < h.next) : ((allocObj h o).2).getS r = h.getS r := by
  unfold Heap.getS
  rw [mem_allocObj_lt h o r hr]

/-- Two heaps agreeing on all of a descriptor's referenced cells give it the
same view. -/
theorem derefSW_congr {V U : Type} (h1 h2 : Heap V U) (sw : ShaderWrapperRef)
    (hv : h1.mem sw.vert_data = h2.mem sw.vert_data)
    (hi : ∀ r, sw.vert_indices = some r → h1.mem r = h2.mem r)
    (hu : h1.mem sw.uniforms = h2.mem sw.uniforms)
    (ht : h1.mem sw.texture_paths = h2.mem sw.texture_paths) :
    derefSW h1 sw = derefSW h2 sw := by
  have e1 : h1.getV sw.vert_data = h2.getV sw.vert_data := by
    unfold Heap.getV; rw [hv]
  have e2 : sw.vert_indices.map h1.getI = sw.vert_indices.map h2.getI := by
    cases hvi : sw.vert_indices with
    | none => rfl
    | some r => simp [Heap.getI, hi r hvi]
  have e3 : h1.getU sw.uniforms = h2.getU sw.uniforms := by
    unfold Heap.getU; rw [hu]
  have e4 : h1.getS sw.texture_paths = h2.getS sw.texture_paths := by
    unfold Heap.getS; rw [ht]
  unfold derefSW
  rw [e1, e2, e3, e4]

theorem getI_allocObj_lt {V U : Type} (h : Heap V U) (o : HeapObj V U) (r : Nat)
    (hr : r < h.next) : ((allocObj h o).2).getI r = h.getI r := by
  unfold Heap.getI
  rw [mem_allocObj_lt h o r hr]

theorem mem_allocObj_self {V U : Type} (h : Heap V U) (o : HeapObj V U) :
    ((allocObj h o).2).mem h.next = o := by
  simp [allocObj]

theorem mem_writeObj_ne {V U : Type} (h : Heap V U) (r x : Nat) (o : HeapObj V U)
    (hx : x ≠ r) : (writeObj h r o).mem x = h.mem x := by
  simp [writeObj, hx]

/-- Writing a cell referenced nowhere in a descriptor leaves its view
unchanged. -/
theorem derefSW_writeObj_ne {V U : Type} (h : Heap V U) (sw : ShaderWrapperRef)
    (r : Nat) (o : HeapObj V U)
    (hv : sw.vert_data ≠ r) (hi : ∀ ri, sw.vert_indices = some ri → ri ≠ r)
    (hu : sw.uniforms ≠ r) (ht : sw.texture_paths ≠ r) :
    derefSW (writeObj h r o) sw = derefSW h sw :=
  derefSW_congr _ _ _ (mem_writeObj_ne h r _ o hv)
    (fun ri hri => mem_writeObj_ne h r _ o (hi ri hri))
    (mem_writeObj_ne h r _ o hu) (mem_writeObj_ne h r _ o ht)

/-- `copy()` on a descriptor without an index buffer and with non-empty dicts:
three fresh cells (vertex array, uniform dict, texture dict), each holding a
copy of the original's object. -/
theorem copyRef_eq_none {V U : Type} (h : Heap V U) (sw : ShaderWrapperRef)
    (hI : sw.vert_indices = none)
    (hun : sw.uniforms < h.next) (htx : sw.texture_paths < h.next)
    (hu : (h.getU sw.uniforms).isEmpty = false)
    (ht : (h.getS sw.texture_paths).isEmpty = false) :
    copyRef h sw =
      ((allocObj ((allocObj ((allocObj h (.varr (h.getV sw.vert_data))).2)
          (.udict (h.getU sw.uniforms))).2)
          (.sdict (h.getS sw.texture_paths))).2,
       { sw with
         vert_data := h.next
         vert_indices := none
         uniforms := h.next + 1
         texture_paths := h.next + 2 }) := by
  have hn1 : ((allocObj h (.varr (h.getV sw.vert_data))).2).next = h.next + 1 := rfl
  have e1 : ((allocObj h (.varr (h.getV sw.vert_data))).2).getU sw.uniforms
      = h.getU sw.uniforms := getU_allocObj_lt _ _ _ hun
  have e2 : ((allocObj ((allocObj h (.varr (h.getV sw.vert_data))).2)
        (.udict (h.getU sw.uniforms))).2).getS sw.texture_paths
      = h.getS sw.texture_paths := by
    rw [getS_allocObj_lt _ _ _ (by rw [hn1]; omega), getS_allocObj_lt _ _ _ htx]
  unfold copyRef
  simp only [hI]
  rw [e1, hu]
  simp only [Bool.false_eq_true, if_false]
  rw [e2, ht]
  simp only [Bool.false_eq_true, if_false]
  rfl

/-- `copy()` on a descriptor with an index buffer and non-empty dicts: four
fresh cells (vertex array, index array, uniform dict, texture dict). -/
theorem copyRef_eq_some {V U : Type} (h : Heap V U) (sw : ShaderWrapperRef)
    (rI : Nat) (hI : sw.vert_indices = some rI) (hrI : rI < h.next)
    (hun : sw.uniforms < h.next) (htx : sw.texture_paths < h.next)
    (hu : (h.getU sw.uniforms).isEmpty = false)
    (ht : (h.getS sw.texture_paths).isEmpty = false) :
    copyRef h sw =
      ((allocObj ((allocObj ((allocObj ((allocObj h
          (.varr (h.getV sw.vert_data))).2)
          (.iarr (h.getI rI))).2)
          (.udict (h.getU sw.uniforms))).2)
          (.sdict (h.getS sw.texture_paths))).2,
       { sw with
         vert_data := h.next
         vert_indices := some (h.next + 1)
         uniforms := h.next + 2
         texture_paths := h.next + 3 }) := by
  have hn1 : ((allocObj h (.varr (h.getV sw.vert_data))).2).next = h.next + 1 := rfl
  have hn2 : ((allocObj ((allocObj h (.varr (h.getV sw.vert_data))).2)
      (.iarr (h.getI rI))).2).next = h.next + 2 := rfl
  have e0 : ((allocObj h (.varr (h.getV sw.vert_data))).2).getI rI
      = h.getI rI := getI_allocObj_lt _ _ _ hrI
  have e1 : ((allocObj ((allocObj h (.varr (h.getV sw.vert_data))).2)
        (.iarr (h.getI rI))).2).getU sw.uniforms
      = h.getU sw.uniforms := by
    rw [getU_allocObj_lt _ _ _ (by rw [hn1]; omega), getU_allocObj_lt _ _ _ hun]
  have e2 : ((allocObj ((allocObj ((allocObj h (.varr (h.getV sw.vert_data))).2)
        (.iarr (h.getI rI))).2) (.udict (h.getU sw.uniforms))).2).getS sw.texture_paths
      = h.getS sw.texture_paths := by
    rw [getS_allocObj_lt _ _ _ (by rw [hn2]; omega),
      getS_allocObj_lt _ _ _ (by rw [hn1]; omega), getS_allocObj_lt _ _ _ htx]
  unfold copyRef
  simp only [hI]
  rw [e0, e1, hu]
  simp only [Bool.false_eq_true, if_false]
  rw [e2, ht]
  simp only [Bool.false_eq_true, if_false]
  rfl

theorem mem_chain3_at0 {V U : Type} (h : Heap V U) (o1 o2 o3 : HeapObj V U) :
    ((allocObj ((allocObj ((allocObj h o1).2) o2).2) o3).2).mem h.next = o1 := by
  have a1 : h.next ≠ h.next + 1 := by omega
  have a2 : h.next ≠ h.next + 1 + 1 := by omega
  simp [allocObj, a1, a2]

theorem mem_chain3_at1 {V U : Type} (h : Heap V U) (o1 o2 o3 : HeapObj V U) :
    ((allocObj ((allocObj ((allocObj h o1).2) o2).2) o3).2).mem (h.next + 1) = o2 := by
  have a1 : h.next + 1 ≠ h.next + 1 + 1 := by omega
  simp [allocObj, a1]

theorem mem_chain3_at2 {V U : Type} (h : Heap V U) (o1 o2 o3 : HeapObj V U) :
    ((allocObj ((allocObj ((allocObj h o1).2) o2).2) o3).2).mem (h.next + 2) = o3 := by
  have a1 : h.next + 2 = h.next + 1 + 1 := by omega
  simp [allocObj, a1]

theorem mem_chain3_lt {V U : Type} (h : Heap V U) (o1 o2 o3 : HeapObj V U)
    (x : Nat) (hx : x < h.next) :
    ((allocObj ((allocObj ((allocObj h o1).2) o2).2) o3).2).mem x = h.mem x := by
  have n0 : x ≠ h.next := by omega
  have n1 : x ≠ h.next + 1 := by omega
  have n2 : x ≠ h.next + 1 + 1 := by omega
  simp [allocObj, n0, n1, n2]

theorem mem_chain4_at0 {V U : Type} (h : Heap V U) (o1 o2 o3 o4 : HeapObj V U) :
    ((allocObj ((allocObj ((allocObj ((allocObj h o1).2) o2).2) o3).2) o4).2).mem
      h.next = o1 := by
  have a1 : h.next ≠ h.next + 1 := by omega
  have a2 : h.next ≠ h.next + 1 + 1 := by omega
  have a3 : h.next ≠ h.next + 1 + 1 + 1 := by omega
  simp [allocObj, a1, a2, a3]

theorem mem_chain4_at1 {V U : Type} (h : Heap V U) (o1 o2 o3 o4 : HeapObj V U) :
    ((allocObj ((allocObj ((allocObj ((allocObj h o1).2) o2).2) o3).2) o4).2).mem
      (h.next + 1) = o2 := by
  have a1 : h.next + 1 ≠ h.next + 1 + 1 := by omega
  have a2 : h.next + 1 ≠ h.next + 1 + 1 + 1 := by omega
  simp [allocObj, a1, a2]

theorem mem_chain4_at2 {V U : Type} (h : Heap V U) (o1 o2 o3 o4 : HeapObj V U) :
    ((allocObj ((allocObj ((allocObj ((allocObj h o1).2) o2).2) o3).2) o4).2).mem
      (h.next + 2) = o3 := by
  have a1 : h.next + 2 = h.next + 1 + 1 := by omega
  have a2 : h.next + 1 + 1 ≠ h.next + 1 + 1 + 1 := by omega
  simp [allocObj, a1, a2]

theorem mem_chain4_at3 {V U : Type} (h : Heap V U) (o1 o2 o3 o4 : HeapObj V U) :
    ((allocObj ((allocObj ((allocObj ((allocObj h o1).2) o2).2) o3).2) o4).2).mem
      (h.next + 3) = o4 := by
  have a1 : h.next + 3 = h.next + 1 + 1 + 1 := by omega
  simp [allocObj, a1]

theorem mem_chain4_lt {V U : Type} (h : Heap V U) (o1 o2 o3 o4 : HeapObj V U)
    (x : Nat) (hx : x < h.next) :
    ((allocObj ((allocObj ((allocObj ((allocObj h o1).2) o2).2) o3).2) o4).2).mem
      x = h.mem x := by
  have n0 : x ≠ h.next := by omega
  have n1 : x ≠ h.next + 1 := by omega
  have n2 : x ≠ h.next + 1 + 1 := by omega
  have n3 : x ≠ h.next + 1 + 1 + 1 := by omega
  simp [allocObj, n0, n1, n2, n3]

/-- C8 (amended): provided the uniform and texture dicts are NON-EMPTY at copy
time, `copy()` allocates fresh objects for the vertex array, the index array
(when present), and both dicts, so (i) the copy's view is structurally equal
to the original's, (ii) the copy operation does not disturb the original's
view, and (iii) overwriting any of the copy's four objects in place leaves the
original's view unchanged.  (When a dict is empty at copy time the dict object
is shared — see the counterexample.) -/
theorem c8_copy_isolation {V U : Type} (h : Heap V U) (sw : ShaderWrapperRef)
    (hv : sw.vert_data < h.next)
    (hvi : ∀ r, sw.vert_indices = some r → r < h.next)
    (hun : sw.uniforms < h.next) (htx : sw.texture_paths < h.next)
    (hu : (h.getU sw.uniforms).isEmpty = false)
    (ht : (h.getS sw.texture_paths).isEmpty = false) :
    derefSW (copyRef h sw).1 (copyRef h sw).2 = derefSW (copyRef h sw).1 sw ∧
    derefSW (copyRef h sw).1 sw = derefSW h sw ∧
    (∀ o, derefSW (writeObj (copyRef h sw).1 (copyRef h sw).2.vert_data o) sw
        = derefSW (copyRef h sw).1 sw) ∧
    (∀ r o, (copyRef h sw).2.vert_indices = some r →
        derefSW (writeObj (copyRef h sw).1 r o) sw = derefSW (copyRef h sw).1 sw) ∧
    (∀ o, derefSW (writeObj (copyRef h sw).1 (copyRef h sw).2.uniforms o) sw
        = derefSW (copyRef h sw).1 sw) ∧
    (∀ o, derefSW (writeObj (copyRef h sw).1 (copyRef h sw).2.texture_paths o) sw
        = derefSW (copyRef h sw).1 sw) := by
  cases hI : sw.vert_indices with
  | none =>
    rw [copyRef_eq_none h sw hI hun htx hu ht]
    dsimp only
    have g1 : ((allocObj ((allocObj ((allocObj h
        (.varr (h.getV sw.vert_data))).2) (.udict (h.getU sw.uniforms))).2)
        (.sdict (h.getS sw.texture_paths))).2).getV h.next
        = h.getV sw.vert_data := by
      unfold Heap.getV; rw [mem_chain3_at0]
    have g2 : ((allocObj ((allocObj ((allocObj h
        (.varr (h.getV sw.vert_data))).2) (.udict (h.getU sw.uniforms))).2)
        (.sdict (h.getS sw.texture_paths))).2).getU (h.next + 1)
        = h.getU sw.uniforms := by
      unfold Heap.getU; rw [mem_chain3_at1]
    have g3 : ((allocObj ((allocObj ((allocObj h
        (.varr (h.getV sw.vert_data))).2) (.udict (h.getU sw.uniforms))).2)
        (.sdict (h.getS sw.texture_paths))).2).getS (h.next + 2)
        = h.getS sw.texture_paths := by
      unfold Heap.getS; rw [mem_chain3_at2]
    have g1' : ((allocObj ((allocObj ((allocObj h
        (.varr (h.getV sw.vert_data))).2) (.udict (h.getU sw.uniforms))).2)
        (.sdict (h.getS sw.texture_paths))).2).getV sw.vert_data
        = h.getV sw.vert_data := by
      unfold Heap.getV; rw [mem_chain3_lt _ _ _ _ _ hv]
    have g2' : ((allocObj ((allocObj ((allocObj h
        (.varr (h.getV sw.vert_data))).2) (.udict (h.getU sw.uniforms))).2)
        (.sdict (h.getS sw.texture_paths))).2).getU sw.uniforms
        = h.getU sw.uniforms := by
      unfold Heap.getU; rw [mem_chain3_lt _ _ _ _ _ hun]
    have g3' : ((allocObj ((allocObj ((allocObj h
        (.varr (h.getV sw.vert_data))).2) (.udict (h.getU sw.uniforms))).2)
        (.sdict (h.getS sw.texture_paths))).2).getS sw.texture_paths
        = h.getS sw.texture_paths := by
      unfold Heap.getS; rw [mem_chain3_lt _ _ _ _ _ htx]
    refine ⟨?_, ?_, ?_, ?_, ?_, ?_⟩
    · unfold derefSW
      rw [hI, g1, g2, g3, g1', g2', g3']
    · exact derefSW_congr _ _ _ (mem_chain3_lt _ _ _ _ _ hv)
        (fun r hr => absurd (hI ▸ hr) (by simp))
        (mem_chain3_lt _ _ _ _ _ hun) (mem_chain3_lt _ _ _ _ _ htx)
    · intro o
      exact derefSW_writeObj_ne _ _ _ _ (by omega)
        (fun ri hri => by rw [hI] at hri; exact Option.noConfusion hri)
        (by omega) (by omega)
    · intro r o hr
      exact Option.noConfusion hr
    · intro o
      exact derefSW_writeObj_ne _ _ _ _ (by omega)
        (fun ri hri => by rw [hI] at hri; exact Option.noConfusion hri)
        (by omega) (by omega)
    · intro o
      exact derefSW_writeObj_ne _ _ _ _ (by omega)
        (fun ri hri => by rw [hI] at hri; exact Option.noConfusion hri)
        (by omega) (by omega)
  | some rI =>
    have hrI : rI < h.next := hvi rI hI
    rw [copyRef_eq_some h sw rI hI hrI hun htx hu ht]
    dsimp only
    have g1 : ((allocObj ((allocObj ((allocObj ((allocObj h
        (.varr (h.getV sw.vert_data))).2) (.iarr (h.getI rI))).2)
        (.udict (h.getU sw.uniforms))).2)
        (.sdict (h.getS sw.texture_paths))).2).getV h.next
        = h.getV sw.vert_data := by
      unfold Heap.getV; rw [mem_chain4_at0]
    have g0 : ((allocObj ((allocObj ((allocObj ((allocObj h
        (.varr (h.getV sw.vert_data))).2) (.iarr (h.getI rI))).2)
        (.udict (h.getU sw.uniforms))).2)
        (.sdict (h.getS sw.texture_paths))).2).getI (h.next + 1)
        = h.getI rI := by
      unfold Heap.getI; rw [mem_chain4_at1]
    have g2 : ((allocObj ((allocObj ((allocObj ((allocObj h
        (.varr (h.getV sw.vert_data))).2) (.iarr (h.getI rI))).2)
        (.udict (h.getU sw.uniforms))).2)
        (.sdict (h.getS sw.texture_paths))).2).getU (h.next + 2)
        = h.getU sw.uniforms := by
      unfold Heap.getU; rw [mem_chain4_at2]
    have g3 : ((allocObj ((allocObj ((allocObj ((allocObj h
        (.varr (h.getV sw.vert_data))).2) (.iarr (h.getI rI))).2)
        (.udict (h.getU sw.uniforms))).2)
        (.sdict (h.getS sw.texture_paths))).2).getS (h.next + 3)
        = h.getS sw.texture_paths := by
      unfold Heap.getS; rw [mem_chain4_at3]
    have g1' : ((allocObj ((allocObj ((allocObj ((allocObj h
        (.varr (h.getV sw.vert_data))).2) (.iarr (h.getI rI))).2)
        (.udict (h.getU sw.uniforms))).2)
        (.sdict (h.getS sw.texture_paths))).2).getV sw.vert_data
        = h.getV sw.vert_data := by
      unfold Heap.getV; rw [mem_chain4_lt _ _ _ _ _ _ hv]
    have g0' : ((allocObj ((allocObj ((allocObj ((allocObj h
        (.varr (h.getV sw.vert_data))).2) (.iarr (h.getI rI))).2)
        (.udict (h.getU sw.uniforms))).2)
        (.sdict (h.getS sw.texture_paths))).2).getI rI
        = h.getI rI := by
      unfold Heap.getI; rw [mem_chain4_lt _ _ _ _ _ _ hrI]
    have g2' : ((allocObj ((allocObj ((allocObj ((allocObj h
        (.varr (h.getV sw.vert_data))).2) (.iarr (h.getI rI))).2)
        (.udict (h.getU sw.uniforms))).2)
        (.sdict (h.getS sw.texture_paths))).2).getU sw.uniforms
        = h.getU sw.uniforms := by
      unfold Heap.getU; rw [mem_chain4_lt _ _ _ _ _ _ hun]
    have g3' : ((allocObj ((allocObj ((allocObj ((allocObj h
        (.varr (h.getV sw.vert_data))).2) (.iarr (h.getI rI))).2)
        (.udict (h.getU sw.uniforms))).2)
        (.sdict (h.getS sw.texture_paths))).2).getS sw.texture_paths
        = h.getS sw.texture_paths := by
      unfold Heap.getS; rw [mem_chain4_lt _ _ _ _ _ _ htx]
    refine ⟨?_, ?_, ?_, ?_, ?_, ?_⟩
    · unfold derefSW
      rw [hI]
      simp only [Option.map_some', g1, g0, g2, g3, g1', g0', g2', g3']
    · exact derefSW_congr _ _ _ (mem_chain4_lt _ _ _ _ _ _ hv)
        (fun r hr => by
          rw [hI] at hr
          cases hr
          exact mem_chain4_lt _ _ _ _ _ _ hrI)
        (mem_chain4_lt _ _ _ _ _ _ hun) (mem_chain4_lt _ _ _ _ _ _ htx)
    · intro o
      exact derefSW_writeObj_ne _ _ _ _ (by omega)
        (fun ri hri => by
          rw [hI] at hri
          cases hri
          omega)
        (by omega) (by omega)
    · intro r o hr
      cases hr
      exact derefSW_writeObj_ne _ _ _ _ (by omega)
        (fun ri hri => by
          rw [hI] at hri
          cases hri
          omega)
        (by omega) (by omega)
    · intro o
      exact derefSW_writeObj_ne _ _ _ _ (by omega)
        (fun ri hri => by
          rw [hI] at hri
          cases hri
          omega)
        (by omega) (by omega)
    · intro o
      exact derefSW_writeObj_ne _ _ _ _ (by omega)
        (fun ri hri => by
          rw [hI] at hri
          cases hri
          omega)
        (by omega) (by omega)

/-- A heap holding a vertex array (cell 0), an EMPTY uniform dict (cell 1) and
a texture dict (cell 2). -/
def c8Heap : Heap Nat Nat :=
  ⟨fun n =>
    if n = 0 then .varr [5]
    else if n = 1 then .udict []
    else if n = 2 then .sdict [("t", "p")]
    else .varr [], 3⟩

/-- A descriptor whose uniform dict is empty at copy time. -/
def c8swr : ShaderWrapperRef where
  vert_data := 0
  vert_indices := none
  shader_folder := "quadratic_bezier"
  uniforms := 1
  texture_paths := 2
  depth_test := false
  use_clip_plane := false
  render_primitive := "5"
  program_code := ⟨some "V", none, some "F"⟩
  program_id := 0
  id := "i"

/-- C8 counterexample: `copy()` guards dict duplication with `if
self.uniforms:`, which is false for an EMPTY dict, so the copy shares the
original's dict object; writing an entry into the copy's (empty-at-copy-time)
uniform dict is visible through the original descriptor — refuting the
claim's "including on copies whose maps were empty at copy time". -/
theorem c8_counterexample :
    c8Heap.getU c8swr.uniforms = [] ∧
    (copyRef c8Heap c8swr).2.uniforms = c8swr.uniforms ∧
    (derefSW (copyRef c8Heap c8swr).1 c8swr).uniforms = [] ∧
    (derefSW (writeObj (copyRef c8Heap c8swr).1 (copyRef c8Heap c8swr).2.uniforms
        (HeapObj.udict [("x", 7)])) c8swr).uniforms = [("x", 7)] := by
  decide

/-- A heap holding a vertex array, a NON-empty uniform dict, a non-empty
texture dict, and an index array. -/
def c8wHeap : Heap Nat Nat :=
  ⟨fun n =>
    if n = 0 then .varr [5]
    else if n = 1 then .udict [("u", 2)]
    else if n = 2 then .sdict [("t", "p")]
    else if n = 3 then .iarr [0]
    else .varr [], 4⟩

/-- A descriptor with an index buffer and non-empty dicts. -/
def c8wRef : ShaderWrapperRef where
  vert_data := 0
  vert_indices := some 3
  shader_folder := "quadratic_bezier"
  uniforms := 1
  texture_paths := 2
  depth_test := false
  use_clip_plane := false
  render_primitive := "5"
  program_code := ⟨some "V", none, some "F"⟩
  program_id := 0
  id := "i"

/-- Witness for C8 (amended) at a concrete descriptor. -/
theorem c8_copy_isolation_witness :
    derefSW (copyRef c8wHeap c8wRef).1 (copyRef c8wHeap c8wRef).2
      = derefSW (copyRef c8wHeap c8wRef).1 c8wRef ∧
    derefSW (copyRef c8wHeap c8wRef).1 c8wRef = derefSW c8wHeap c8wRef ∧
    (∀ o, derefSW (writeObj (copyRef c8wHeap c8wRef).1
        (copyRef c8wHeap c8wRef).2.vert_data o) c8wRef
        = derefSW (copyRef c8wHeap c8wRef).1 c8wRef) ∧
    (∀ r o, (copyRef c8wHeap c8wRef).2.vert_indices = some r →
        derefSW (writeObj (copyRef c8wHeap c8wRef).1 r o) c8wRef
        = derefSW (copyRef c8wHeap c8wRef).1 c8wRef) ∧
    (∀ o, derefSW (writeObj (copyRef c8wHeap c8wRef).1
        (copyRef c8wHeap c8wRef).2.uniforms o) c8wRef
        = derefSW (copyRef c8wHeap c8wRef).1 c8wRef) ∧
    (∀ o, derefSW (writeObj (copyRef c8wHeap c8wRef).1
        (copyRef c8wHeap c8wRef).2.texture_paths o) c8wRef
        = derefSW (copyRef c8wHeap c8wRef).1 c8wRef) :=
  c8_copy_isolation c8wHeap c8wRef (by decide)
    (by
      intro r hr
      have h3 : some 3 = some r := hr
      injection h3 with h4
      rw [← h4]
      decide)
    (by decide) (by decide) (by decide) (by decide)
